import Mathlib

/-!
Shallow embedding of the adaptive ODE time stepper in
`src/src/kernel/ode/TimeStepper.cpp`.

The repository source contains only the orchestrator `TimeStepper`; its
collaborators (the time slabs, the fixed-point iteration engine, the
adaptivity controller, the solution container, the sample file) are external.
They are modelled here at their interface boundary, as per-attempt oracles:
an `Attempt` record supplies, for one slab attempt, the end time the slab
construction chose, the result and state mutation of `fixpoint.iterate`, the
controller's `accept` verdict, and the engine's `stabilization` diagnostics.
`real` is embedded as `ℚ`; calls with externally visible effects
(`adaptivity.stabilize`, `u.reset`, `adaptivity.shift`, sample writes,
`shift()`) are recorded in an event trace.
-/

namespace TimeStepperModel

/-- Solution container `u` (external `Solution`/`Function` collaborator,
modelled from the spec: it supports checkpoint-style `reset()`, which
discards tentative updates, and `shift(t)`, which commits the current values
as the accepted state).  `committed` is the last committed state, `current`
the (possibly tentative) working state. -/
structure Sol (α : Type) where
  committed : α
  current : α
deriving DecidableEq, Repr

/-- Models `u.reset()`: discard tentative updates, restoring the committed state. -/
def u_reset {α : Type} (u : Sol α) : Sol α :=
  { u with current := u.committed }

/-- Models `u.shift(t)`: commit the current (tentative) values. -/
def u_shift {α : Type} (u : Sol α) : Sol α :=
  { u with committed := u.current }

/-- Oracle describing the behaviour of the external collaborators during one
slab attempt: `slabEnd` is the end time the slab construction chooses (its
start time is the stepper's current `t`); `iterConv` is the return value of
`fixpoint.iterate(timeslab)` and `iterState` the mutation it performs on
`u`'s working values; `accepts` is the verdict of
`adaptivity.accept(timeslab, f)`; `stabilization` models
`fixpoint.stabilization(alpha, m)`, receiving the caller-initialized values
of `alpha` and `m` and returning their final values. -/
structure Attempt (α : Type) where
  slabEnd : ℚ
  iterConv : Bool
  iterState : α → α
  accepts : Bool
  stabilization : ℚ → ℕ → ℚ × ℕ

/-- The state of a `TimeStepper` object: field for field the data members of
the C++ class that the control flow reads or writes (`no_samples`, `N`, `t`,
`T`, the progress fraction `p`, `_finished`, `save_solution`), plus the
solution container `u` and the adaptivity controller's `fixed()` flag
(a configuration readout, constant over a run). -/
structure TimeStepper (α : Type) where
  no_samples : ℤ
  N : ℕ
  t : ℚ
  T : ℚ
  p : ℚ
  _finished : Bool
  save_solution : Bool
  fixedFlag : Bool
  u : Sol α
deriving DecidableEq, Repr

/-- The constructor `TimeStepper::TimeStepper(ode, function)`: reads
`no_samples` and `save_solution` from the configuration, sets `N = ode.size()`,
`t = 0`, `T = ode.endtime()`, `_finished = false`, and performs no further
work besides a warning and starting a timer — in particular it performs no
validation of its inputs. -/
def mkTimeStepper {α : Type} (no_samples : ℤ) (N : ℕ) (T : ℚ)
    (save_solution fixedFlag : Bool) (u0 : α) : TimeStepper α :=
  { no_samples := no_samples, N := N, t := 0, T := T, p := 0,
    _finished := false, save_solution := save_solution,
    fixedFlag := fixedFlag, u := { committed := u0, current := u0 } }

/-- Externally visible calls made during an attempt, in program order:
`adaptivity.stabilize(k, m)`, `u.reset()`, the rejection-branch
`adaptivity.shift(u, f)` (recording the `u` values it sees), a sample written
to the output file (recording the sample time), and `shift()`
(`adaptivity.shift(u, f)` followed by `u.shift(t)`, recording the `u` values
and the time). -/
inductive Event (α : Type) where
  | stabilized (k : ℚ) (m : ℕ)
  | reset
  | residualShift (uval : α)
  | sampled (tsample : ℚ)
  | shifted (uval : α) (tnew : ℚ)
deriving DecidableEq, Repr

/-- Models `TimeStepper::stabilize(K)`: initializes `alpha = 1.0` and `m = 0`, lets
the fixed-point engine overwrite them via `fixpoint.stabilization(alpha, m)`,
then computes the stabilized step `k = min(alpha, 0.5) * K`; returns the pair
`(k, m)` that is passed on to `adaptivity.stabilize(k, m)`. -/
def stabilize {α : Type} (att : Attempt α) (K : ℚ) : ℚ × ℕ :=
  let am := att.stabilization 1 0
  let alpha := am.1
  let m := am.2
  let k := min alpha (1/2) * K
  (k, m)

/-- The sample loop of `TimeStepper::save`:
`while (t < endtime) { emit t; t += K; }`, with an explicit fuel bound (the
caller passes fuel that is provably sufficient whenever `K > 0`, in which
case the fuel never runs out before the guard fails). -/
def sampleLoop (K endtime : ℚ) : ℕ → ℚ → List ℚ
  | 0, _ => []
  | n + 1, t => if t < endtime then t :: sampleLoop K endtime n (t + K) else []

/-- Models `TimeStepper::save(timeslab)`: if saving is disabled, do nothing.
Otherwise let `K = T / no_samples`, start at
`t = ceil(starttime / K) * K`, emit a sample and advance by `K` while
`t < endtime`, and emit one extra sample at `endtime` if the slab is the
final one (`timeslab.finished()`, i.e. `endtime == T`, modelled from the
spec).  Returns the list of sample times written. -/
def save {α : Type} (s : TimeStepper α) (starttime endtime : ℚ) : List ℚ :=
  if !s.save_solution then []
  else
    let K := s.T / (s.no_samples : ℚ)
    let t0 := (⌈starttime / K⌉ : ℚ) * K
    sampleLoop K endtime ((⌈endtime / K⌉ - ⌈starttime / K⌉).toNat + 1) t0 ++
      (if endtime = s.T then [endtime] else [])

/-- Models `TimeStepper::createFirstTimeSlab()`: builds a `SimpleTimeSlab` over
`[t, slabEnd]`, runs `fixpoint.iterate` (which mutates `u`); on
non-convergence calls `stabilize(timeslab.length())` and `u.reset()` and
reports rejection; on convergence, if the step size is not fixed, checks
`adaptivity.accept(timeslab, f)` and on failure calls `adaptivity.shift(u, f)`
and `u.reset()` and reports rejection; otherwise accepts: sets
`t = timeslab.endtime()`, saves samples, runs `shift()`, sets `p = t / T`,
and if `timeslab.finished()` (endtime equals `T`, modelled from the spec)
sets `_finished = true` and `p = 1.0`.  Returns the accept flag, the new
state, and the event trace. -/
def createFirstTimeSlab {α : Type} (s : TimeStepper α) (att : Attempt α) :
    Bool × TimeStepper α × List (Event α) :=
  let starttime := s.t
  let endtime := att.slabEnd
  let u1 : Sol α := { s.u with current := att.iterState s.u.current }
  if !att.iterConv then
    let km := stabilize att (endtime - starttime)
    (false, { s with u := u_reset u1 }, [Event.stabilized km.1 km.2, Event.reset])
  else if !s.fixedFlag && !att.accepts then
    (false, { s with u := u_reset u1 }, [Event.residualShift u1.current, Event.reset])
  else
    let samples := save s starttime endtime
    let fin : Bool := endtime = s.T
    (true,
     { s with t := endtime, u := u_shift u1,
              p := if fin then 1 else endtime / s.T,
              _finished := s._finished || fin },
     samples.map Event.sampled ++ [Event.shifted u1.current endtime])

/-- Models `TimeStepper::createGeneralTimeSlab()`: builds a `RecursiveTimeSlab` over
`[t, slabEnd]` and proceeds exactly like the first-slab path except that the
residual acceptance check is commented out in the source: every attempt whose
fixed-point iteration converges is accepted. -/
def createGeneralTimeSlab {α : Type} (s : TimeStepper α) (att : Attempt α) :
    Bool × TimeStepper α × List (Event α) :=
  let starttime := s.t
  let endtime := att.slabEnd
  let u1 : Sol α := { s.u with current := att.iterState s.u.current }
  if !att.iterConv then
    let km := stabilize att (endtime - starttime)
    (false, { s with u := u_reset u1 }, [Event.stabilized km.1 km.2, Event.reset])
  else
    let samples := save s starttime endtime
    let fin : Bool := endtime = s.T
    (true,
     { s with t := endtime, u := u_shift u1,
              p := if fin then 1 else endtime / s.T,
              _finished := s._finished || fin },
     samples.map Event.sampled ++ [Event.shifted u1.current endtime])

/-- Models `TimeStepper::createTimeSlab()`: dispatch on `t == 0.0`. -/
def createTimeSlab {α : Type} (s : TimeStepper α) (att : Attempt α) :
    Bool × TimeStepper α × List (Event α) :=
  if s.t = 0 then createFirstTimeSlab s att
  else createGeneralTimeSlab s att

/-- Models `TimeStepper::step()`: `while (!createTimeSlab()); return t;` — repeats
slab attempts until one is accepted, then returns the current time.  The
environment's behaviour for the successive attempts is given as a list;
`none` models the case where the supplied attempts are exhausted before any
acceptance (the loop would still be running). -/
def step {α : Type} :
    TimeStepper α → List (Attempt α) → Option (ℚ × TimeStepper α × List (Event α))
  | _, [] => none
  | s, att :: rest =>
    let r := createTimeSlab s att
    if r.1 then some (r.2.1.t, r.2.1, r.2.2)
    else
      match step r.2.1 rest with
      | none => none
      | some q => some (q.1, q.2.1, r.2.2 ++ q.2.2)

/-- A whole run (`TimeStepper::solve`'s loop of `step()` calls), processing a
list of attempts in order and accumulating the event trace. -/
def run {α : Type} :
    TimeStepper α → List (Attempt α) → TimeStepper α × List (Event α)
  | s, [] => (s, [])
  | s, att :: rest =>
    let r := createTimeSlab s att
    let q := run r.2.1 rest
    (q.1, r.2.2 ++ q.2)

/-- The sample times recorded in an event trace. -/
def sampleTimes {α : Type} (evs : List (Event α)) : List ℚ :=
  evs.filterMap fun e =>
    match e with
    | Event.sampled t => some t
    | _ => none

/-- A slab attempt whose constructed interval is well formed at state `s`:
`start < end <= T` with `start = s.t` (the time-slab invariant, modelled from
the spec since the slab construction code is external). -/
def goodAttempt {α : Type} (s : TimeStepper α) (att : Attempt α) : Prop :=
  s.t < att.slabEnd ∧ att.slabEnd ≤ s.T

/-- A stepper state mid-run: `t = 4`, `T = 10`, five samples, saving off,
adaptive mode, solution container in its committed state. -/
def sFix : TimeStepper ℚ :=
  { no_samples := 5, N := 2, t := 4, T := 10, p := 2/5, _finished := false,
    save_solution := false, fixedFlag := false,
    u := { committed := 2, current := 2 } }

/-- An attempt whose fixed-point iteration converges and whose residual is
judged acceptable; the engine leaves the stabilization defaults unchanged. -/
def attConv : Attempt ℚ :=
  { slabEnd := 6, iterConv := true, iterState := fun x => x + 1,
    accepts := true, stabilization := fun a m => (a, m) }

/-- An attempt whose fixed-point iteration fails to converge. -/
def attFail : Attempt ℚ :=
  { slabEnd := 6, iterConv := false, iterState := fun x => x + 1,
    accepts := true, stabilization := fun a m => (a, m) }

/-- An attempt that converges but whose residual is judged too large. -/
def attRej : Attempt ℚ :=
  { slabEnd := 6, iterConv := true, iterState := fun x => x + 1,
    accepts := false, stabilization := fun a m => (a, m) }

/-- An attempt whose engine reports a non-positive damping factor. -/
def attNeg : Attempt ℚ :=
  { slabEnd := 6, iterConv := false, iterState := fun x => x + 1,
    accepts := true, stabilization := fun _ _ => (-1, 3) }

def sRun : TimeStepper ℚ :=
  { no_samples := 5, N := 1, t := 0, T := 10, p := 0, _finished := false,
    save_solution := true, fixedFlag := false,
    u := { committed := 1, current := 1 } }

def attA : Attempt ℚ :=
  { slabEnd := 4, iterConv := true, iterState := id, accepts := true,
    stabilization := fun a m => (a, m) }

def attB : Attempt ℚ :=
  { slabEnd := 10, iterConv := true, iterState := id, accepts := true,
    stabilization := fun a m => (a, m) }

/-!
Helper lemmas.
-/

/-- Case analysis of the first-slab path: the attempt is either accepted,
with the full accepted-state update, or rejected, with only the solution
container reset. -/
lemma createFirstTimeSlab_cases {α : Type} (s : TimeStepper α) (att : Attempt α) :
    ((createFirstTimeSlab s att).1 = true ∧
     (createFirstTimeSlab s att).2.1 =
       { s with t := att.slabEnd,
                u := u_shift { s.u with current := att.iterState s.u.current },
                p := if att.slabEnd = s.T then 1 else att.slabEnd / s.T,
                _finished := s._finished || decide (att.slabEnd = s.T) }) ∨
    ((createFirstTimeSlab s att).1 = false ∧
     (createFirstTimeSlab s att).2.1 =
       { s with u := u_reset { s.u with current := att.iterState s.u.current } }) := by
  by_cases hc : att.iterConv <;> by_cases hf : s.fixedFlag <;>
    by_cases ha : att.accepts <;>
    simp [createFirstTimeSlab, hc, hf, ha, u_reset]

/-- Case analysis of the general-slab path, same shape as the first-slab
path (the rejected case here only arises from iteration failure). -/
lemma createGeneralTimeSlab_cases {α : Type} (s : TimeStepper α) (att : Attempt α) :
    ((createGeneralTimeSlab s att).1 = true ∧
     (createGeneralTimeSlab s att).2.1 =
       { s with t := att.slabEnd,
                u := u_shift { s.u with current := att.iterState s.u.current },
                p := if att.slabEnd = s.T then 1 else att.slabEnd / s.T,
                _finished := s._finished || decide (att.slabEnd = s.T) }) ∨
    ((createGeneralTimeSlab s att).1 = false ∧
     (createGeneralTimeSlab s att).2.1 =
       { s with u := u_reset { s.u with current := att.iterState s.u.current } }) := by
  by_cases hc : att.iterConv <;>
    simp [createGeneralTimeSlab, hc, u_reset]

/-- Case analysis of `createTimeSlab`, independent of which path was taken. -/
lemma createTimeSlab_cases {α : Type} (s : TimeStepper α) (att : Attempt α) :
    ((createTimeSlab s att).1 = true ∧
     (createTimeSlab s att).2.1 =
       { s with t := att.slabEnd,
                u := u_shift { s.u with current := att.iterState s.u.current },
                p := if att.slabEnd = s.T then 1 else att.slabEnd / s.T,
                _finished := s._finished || decide (att.slabEnd = s.T) }) ∨
    ((createTimeSlab s att).1 = false ∧
     (createTimeSlab s att).2.1 =
       { s with u := u_reset { s.u with current := att.iterState s.u.current } }) := by
  by_cases h0 : s.t = 0
  · rw [createTimeSlab, if_pos h0]
    exact createFirstTimeSlab_cases s att
  · rw [createTimeSlab, if_neg h0]
    exact createGeneralTimeSlab_cases s att

lemma sampleLoop_closed (K e : ℚ) (hK : 0 < K) :
    ∀ (n : ℕ) (j : ℤ), (⌈e / K⌉ - j).toNat < n →
      sampleLoop K e n ((j : ℚ) * K) =
        (List.range (⌈e / K⌉ - j).toNat).map (fun i : ℕ => ((j : ℚ) + (i : ℚ)) * K) := by
  intro n
  induction n with
  | zero => intro j h; exact absurd h (Nat.not_lt_zero _)
  | succ n ih =>
    intro j h
    have hguard : ((j : ℚ) * K < e) ↔ (j < ⌈e / K⌉) := by
      rw [Int.lt_ceil, lt_div_iff₀ hK]
    by_cases hj : j < ⌈e / K⌉
    · have hm : (⌈e / K⌉ - j).toNat = (⌈e / K⌉ - (j + 1)).toNat + 1 := by omega
      rw [sampleLoop, if_pos (hguard.mpr hj), hm, List.range_succ_eq_map]
      have hstep : (j : ℚ) * K + K = ((j + 1 : ℤ) : ℚ) * K := by push_cast; ring
      rw [List.map_cons, List.map_map, hstep, ih (j + 1) (by omega)]
      congr 1
      · push_cast; ring
      · apply List.map_congr_left
        intro i _
        show (((j + 1 : ℤ) : ℚ) + (i : ℚ)) * K = (((j : ℚ) + ((Nat.succ i : ℕ) : ℚ)) * K)
        push_cast; ring
    · have hz : (⌈e / K⌉ - j).toNat = 0 := by omega
      rw [sampleLoop, if_neg (fun hlt => hj (hguard.mp hlt)), hz]
      rfl

lemma save_closed {α : Type} (s : TimeStepper α) (a b : ℚ)
    (hsave : s.save_solution = true)
    (hK : 0 < s.T / (s.no_samples : ℚ)) :
    save s a b =
      (List.range (⌈b / (s.T / (s.no_samples : ℚ))⌉ -
          ⌈a / (s.T / (s.no_samples : ℚ))⌉).toNat).map
        (fun i : ℕ =>
          ((⌈a / (s.T / (s.no_samples : ℚ))⌉ : ℚ) + (i : ℚ)) *
            (s.T / (s.no_samples : ℚ))) ++
      (if b = s.T then [b] else []) := by
  rw [save, hsave]
  simp only [Bool.not_true, Bool.false_eq_true, if_false]
  rw [sampleLoop_closed _ _ hK _ _ (Nat.lt_succ_self _)]

lemma mem_save_iff {α : Type} (s : TimeStepper α) (a b x K : ℚ)
    (hsave : s.save_solution = true)
    (hKdef : K = s.T / (s.no_samples : ℚ)) (hK : 0 < K) :
    x ∈ save s a b ↔
      ((∃ j : ℤ, x = (j : ℚ) * K) ∧ a ≤ x ∧ x < b) ∨ (b = s.T ∧ x = b) := by
  subst hKdef
  rw [save_closed s a b hsave hK]
  set K := s.T / (s.no_samples : ℚ) with hKdef
  simp only [List.mem_append, List.mem_map, List.mem_range]
  constructor
  · rintro (⟨i, hi, rfl⟩ | hx)
    · left
      refine ⟨⟨⌈a / K⌉ + i, by push_cast; ring⟩, ?_, ?_⟩
      · have h1 : a / K ≤ (⌈a / K⌉ : ℚ) := Int.le_ceil _
        have h2 : a ≤ (⌈a / K⌉ : ℚ) * K := by rwa [div_le_iff₀ hK] at h1
        calc a ≤ (⌈a / K⌉ : ℚ) * K := h2
          _ ≤ ((⌈a / K⌉ : ℚ) + (i : ℚ)) * K :=
            mul_le_mul_of_nonneg_right (le_add_of_nonneg_right (Nat.cast_nonneg i)) hK.le
      · have hj : ⌈a / K⌉ + (i : ℤ) < ⌈b / K⌉ := by omega
        have hlt : ((⌈a / K⌉ + (i : ℤ) : ℤ) : ℚ) < b / K := by
          exact_mod_cast Int.lt_ceil.mp hj
        rw [lt_div_iff₀ hK] at hlt
        calc ((⌈a / K⌉ : ℚ) + (i : ℚ)) * K
            = ((⌈a / K⌉ + (i : ℤ) : ℤ) : ℚ) * K := by push_cast; ring
          _ < b := hlt
    · by_cases hb : b = s.T
      · rw [if_pos hb] at hx
        right
        exact ⟨hb, by simpa using hx⟩
      · rw [if_neg hb] at hx
        exact absurd hx (by simp)
  · rintro (⟨⟨j, rfl⟩, hax, hxb⟩ | ⟨hb, rfl⟩)
    · left
      have h1 : ⌈a / K⌉ ≤ j := by
        rw [Int.ceil_le]
        rw [div_le_iff₀ hK]
        exact hax
      have h2 : j < ⌈b / K⌉ := by
        rw [Int.lt_ceil, lt_div_iff₀ hK]
        exact hxb
      refine ⟨(j - ⌈a / K⌉).toNat, by omega, ?_⟩
      have hcast : (((j - ⌈a / K⌉).toNat : ℕ) : ℚ) = (j : ℚ) - (⌈a / K⌉ : ℚ) := by
        have := Int.toNat_of_nonneg (by omega : (0 : ℤ) ≤ j - ⌈a / K⌉)
        exact_mod_cast congrArg (fun z : ℤ => (z : ℚ)) this
      rw [hcast]
      ring
    · right
      simp [hb]

lemma save_telescope {α : Type} (s : TimeStepper α) (a b c : ℚ)
    (hsave : s.save_solution = true)
    (hK : 0 < s.T / (s.no_samples : ℚ))
    (hab : a ≤ b) (hbc : b ≤ c) (hbT : b ≠ s.T) :
    save s a b ++ save s b c = save s a c := by
  rw [save_closed s a b hsave hK, save_closed s b c hsave hK,
    save_closed s a c hsave hK, if_neg hbT, List.append_nil,
    ← List.append_assoc]
  congr 1
  set K := s.T / (s.no_samples : ℚ) with hKdef
  have h12 : ⌈a / K⌉ ≤ ⌈b / K⌉ := Int.ceil_le_ceil (by gcongr)
  have h23 : ⌈b / K⌉ ≤ ⌈c / K⌉ := Int.ceil_le_ceil (by gcongr)
  have hpq : (⌈c / K⌉ - ⌈a / K⌉).toNat =
      (⌈b / K⌉ - ⌈a / K⌉).toNat + (⌈c / K⌉ - ⌈b / K⌉).toNat := by omega
  rw [hpq, List.range_add, List.map_append, List.map_map]
  congr 1
  apply List.map_congr_left
  intro i _
  show ((⌈b / K⌉ : ℚ) + (i : ℚ)) * K =
    ((⌈a / K⌉ : ℚ) + (((⌈b / K⌉ - ⌈a / K⌉).toNat + i : ℕ) : ℚ)) * K
  have hcast : (((⌈b / K⌉ - ⌈a / K⌉).toNat : ℕ) : ℚ) =
      (⌈b / K⌉ : ℚ) - (⌈a / K⌉ : ℚ) := by
    have := Int.toNat_of_nonneg (by omega : (0 : ℤ) ≤ ⌈b / K⌉ - ⌈a / K⌉)
    exact_mod_cast congrArg (fun z : ℤ => (z : ℚ)) this
  push_cast
  rw [hcast]
  ring

lemma createTimeSlab_accepted_events {α : Type} (s : TimeStepper α)
    (att : Attempt α) (hc : att.iterConv = true) (ha : att.accepts = true) :
    (createTimeSlab s att).1 = true ∧
    (createTimeSlab s att).2.1 =
      { s with t := att.slabEnd,
               u := u_shift { s.u with current := att.iterState s.u.current },
               p := if att.slabEnd = s.T then 1 else att.slabEnd / s.T,
               _finished := s._finished || decide (att.slabEnd = s.T) } ∧
    (createTimeSlab s att).2.2 =
      (save s s.t att.slabEnd).map Event.sampled ++
        [Event.shifted (att.iterState s.u.current) att.slabEnd] := by
  by_cases h0 : s.t = 0 <;>
    simp [createTimeSlab, h0, createFirstTimeSlab, createGeneralTimeSlab, hc, ha]

lemma sampleTimes_append {α : Type} (l1 l2 : List (Event α)) :
    sampleTimes (l1 ++ l2) = sampleTimes l1 ++ sampleTimes l2 :=
  List.filterMap_append ..

lemma sampleTimes_map_sampled {α : Type} (l : List ℚ) :
    sampleTimes (l.map (Event.sampled (α := α))) = l := by
  induction l with
  | nil => rfl
  | cons x l ih => simpa [sampleTimes] using ih

lemma sampleTimes_shifted {α : Type} (uval : α) (tnew : ℚ) :
    sampleTimes [Event.shifted uval tnew] = [] := rfl

lemma run_samples_chain {α : Type} (s : TimeStepper α) (atts : List (Attempt α))
    (hT : s.T = 10) (hn : s.no_samples = 5) (hsave : s.save_solution = true)
    (h0 : 0 ≤ s.t) (hne : atts ≠ [])
    (hchain : List.Chain (· < ·) s.t (atts.map (·.slabEnd)))
    (hub : ∀ a ∈ atts, a.slabEnd ≤ 10)
    (hlast : (atts.map (·.slabEnd)).getLast? = some 10)
    (hacc : ∀ a ∈ atts, a.iterConv = true ∧ a.accepts = true) :
    sampleTimes (run s atts).2 = save s s.t 10 := by
  induction atts generalizing s with
  | nil => exact absurd rfl hne
  | cons att rest ih =>
    obtain ⟨hc, ha⟩ := hacc att (List.mem_cons_self att rest)
    obtain ⟨hacc1, hst, hev⟩ := createTimeSlab_accepted_events s att hc ha
    rw [List.map_cons, List.chain_cons] at hchain
    obtain ⟨hlt1, hchain2⟩ := hchain
    have hKpos : 0 < s.T / (s.no_samples : ℚ) := by
      rw [hT, hn]; norm_num
    simp only [run]
    rw [sampleTimes_append, hev, sampleTimes_append, sampleTimes_map_sampled,
      sampleTimes_shifted, List.append_nil]
    cases rest with
    | nil =>
      have hend : att.slabEnd = 10 := by simpa using hlast
      rw [run]
      show save s s.t att.slabEnd ++ sampleTimes [] = save s s.t 10
      rw [hend]
      simp [sampleTimes]
    | cons att2 rest2 =>
      have hend2 : att.slabEnd < 10 := by
        rw [List.map_cons, List.chain_cons] at hchain2
        exact lt_of_lt_of_le hchain2.1
          (hub att2 (List.mem_cons_of_mem att (List.mem_cons_self att2 rest2)))
      have hs' := ih (createTimeSlab s att).2.1
      rw [hst] at hs'
      have htail : sampleTimes (run
          { s with t := att.slabEnd,
                   u := u_shift { s.u with current := att.iterState s.u.current },
                   p := if att.slabEnd = s.T then 1 else att.slabEnd / s.T,
                   _finished := s._finished || decide (att.slabEnd = s.T) }
          (att2 :: rest2)).2 = save s att.slabEnd 10 := by
        apply hs'
        · exact hT
        · exact hn
        · exact hsave
        · exact le_of_lt (lt_of_le_of_lt h0 hlt1)
        · exact List.cons_ne_nil att2 rest2
        · exact hchain2
        · intro a haa
          exact hub a (List.mem_cons_of_mem att haa)
        · simpa using hlast
        · intro a haa
          exact hacc a (List.mem_cons_of_mem att haa)
      rw [hst, htail]
      exact save_telescope s s.t att.slabEnd 10 hsave hKpos (le_of_lt hlt1)
        (le_of_lt hend2) (by rw [hT]; exact ne_of_lt hend2)

lemma save_zero_to_ten {α : Type} (s : TimeStepper α)
    (hT : s.T = 10) (hn : s.no_samples = 5) (hsave : s.save_solution = true) :
    save s 0 10 = [0, 2, 4, 6, 8, 10] := by
  have hK : 0 < s.T / (s.no_samples : ℚ) := by rw [hT, hn]; norm_num
  have hKval : s.T / (s.no_samples : ℚ) = 2 := by rw [hT, hn]; norm_num
  rw [save_closed s 0 10 hsave hK, hKval, hT]
  have h5 : Int.toNat 5 = 5 := rfl
  norm_num [h5, List.range_succ]

/-!
The claim theorems and their witnesses.
-/

/-- C5: on every iteration failure the stabilized step handed to
`adaptivity.stabilize` equals `min(alpha, 0.5) * K`, where `K` is the
rejected slab length and `alpha` is the damping factor reported by
`fixpoint.stabilization`; hence the stabilized step is at most `K / 2`,
regardless of `alpha`. -/
theorem stabilize_capped_at_half {α : Type} (att : Attempt α) (K : ℚ)
    (hK : 0 ≤ K) :
    stabilize att K =
      (min (att.stabilization 1 0).1 (1/2) * K, (att.stabilization 1 0).2) ∧
    (stabilize att K).1 ≤ K / 2 := by
  constructor
  · rfl
  · show min (att.stabilization 1 0).1 (1/2) * K ≤ K / 2
    calc min (att.stabilization 1 0).1 (1/2) * K ≤ (1/2) * K :=
          mul_le_mul_of_nonneg_right (min_le_right _ _) hK
      _ = K / 2 := by ring

/-- Witness for C5 at a concrete input: `K = 6`, engine leaving the default
damping factor `alpha = 1`, so the controller receives `k = 3 = 6 / 2`. -/
theorem stabilize_capped_at_half_witness :
    (0:ℚ) ≤ 6 ∧
    (stabilize attFail 6 =
       (min (attFail.stabilization 1 0).1 (1/2) * 6,
        (attFail.stabilization 1 0).2) ∧
     (stabilize attFail 6).1 ≤ 6 / 2) :=
  ⟨by norm_num, stabilize_capped_at_half attFail 6 (by norm_num)⟩

/-- C10: `TimeStepper::stabilize` initializes `alpha = 1.0` and `m = 0`
before querying the engine, so an engine that leaves them unchanged yields
exactly `k = 0.5 * K` and `m = 0`; and `k = min(alpha, 0.5) * K` has no
positive lower bound: whenever the engine reports `alpha <= 0` and the slab
length is positive, a non-positive step `k <= 0` is passed on unguarded. -/
theorem stabilize_defaults_and_unguarded {α : Type} (att : Attempt α) (K : ℚ) :
    (att.stabilization 1 0 = (1, 0) → stabilize att K = ((1/2) * K, 0)) ∧
    ((att.stabilization 1 0).1 ≤ 0 → 0 < K → (stabilize att K).1 ≤ 0) := by
  constructor
  · intro h
    show (min (att.stabilization 1 0).1 (1/2) * K, (att.stabilization 1 0).2) =
      ((1/2) * K, 0)
    rw [h]
    norm_num
  · intro ha hK
    show min (att.stabilization 1 0).1 (1/2) * K ≤ 0
    exact mul_nonpos_of_nonpos_of_nonneg (le_trans (min_le_left _ _) ha) hK.le

/-- Witness for C10: with the identity engine and `K = 6` the controller
receives `(3, 0)`; with an engine reporting `alpha = -1` and `K = 6` it
receives a non-positive step. -/
theorem stabilize_defaults_and_unguarded_witness :
    (attFail.stabilization 1 0 = (1, 0) ∧ stabilize attFail 6 = ((1/2) * 6, 0)) ∧
    ((attNeg.stabilization 1 0).1 ≤ 0 ∧ (0:ℚ) < 6 ∧ (stabilize attNeg 6).1 ≤ 0) :=
  ⟨⟨rfl, (stabilize_defaults_and_unguarded attFail 6).1 rfl⟩,
   ⟨by norm_num [attNeg], by norm_num,
    (stabilize_defaults_and_unguarded attNeg 6).2 (by norm_num [attNeg]) (by norm_num)⟩⟩

/-- C2: in the general (recursive) slab path no residual acceptance check is
performed: every attempt whose fixed-point iteration converges is accepted
— time advanced to the slab end, samples saved, solution shifted
(committed) — for every value of `accepts` and of the controller fixed
flag (neither appears as a hypothesis). -/
theorem general_slab_no_residual_check {α : Type} (s : TimeStepper α)
    (att : Attempt α) (h : att.iterConv = true) :
    (createGeneralTimeSlab s att).1 = true ∧
    (createGeneralTimeSlab s att).2.1.t = att.slabEnd ∧
    (createGeneralTimeSlab s att).2.1.u =
      u_shift { s.u with current := att.iterState s.u.current } ∧
    (createGeneralTimeSlab s att).2.2 =
      (save s s.t att.slabEnd).map Event.sampled ++
        [Event.shifted (att.iterState s.u.current) att.slabEnd] := by
  simp [createGeneralTimeSlab, h]

/-- Witness for C2 at a concrete state and attempt whose residual verdict is
irrelevant to the outcome. -/
theorem general_slab_no_residual_check_witness :
    attConv.iterConv = true ∧
    ((createGeneralTimeSlab sFix attConv).1 = true ∧
     (createGeneralTimeSlab sFix attConv).2.1.t = attConv.slabEnd ∧
     (createGeneralTimeSlab sFix attConv).2.1.u =
       u_shift { sFix.u with current := attConv.iterState sFix.u.current } ∧
     (createGeneralTimeSlab sFix attConv).2.2 =
       (save sFix sFix.t attConv.slabEnd).map Event.sampled ++
         [Event.shifted (attConv.iterState sFix.u.current) attConv.slabEnd]) :=
  ⟨rfl, general_slab_no_residual_check sFix attConv rfl⟩

/-- C3: in both slab paths, when the fixed-point iteration fails to converge
the stepper calls `adaptivity.stabilize` with the values computed by
`stabilize` from the rejected slab length, then `u.reset()`; the attempt is
reported rejected; `t`, `p` and the finished flag are unchanged, the solution
state is rolled back to its pre-attempt value, and no sample is written. -/
theorem rejection_on_iteration_failure {α : Type} (s : TimeStepper α)
    (att : Attempt α) (h : att.iterConv = false)
    (hu : s.u.current = s.u.committed) :
    ((createFirstTimeSlab s att).1 = false ∧
     (createFirstTimeSlab s att).2.2 =
       [Event.stabilized (stabilize att (att.slabEnd - s.t)).1
          (stabilize att (att.slabEnd - s.t)).2, Event.reset] ∧
     (createFirstTimeSlab s att).2.1.t = s.t ∧
     (createFirstTimeSlab s att).2.1.p = s.p ∧
     (createFirstTimeSlab s att).2.1._finished = s._finished ∧
     (createFirstTimeSlab s att).2.1.u.current = s.u.current ∧
     sampleTimes (createFirstTimeSlab s att).2.2 = []) ∧
    ((createGeneralTimeSlab s att).1 = false ∧
     (createGeneralTimeSlab s att).2.2 =
       [Event.stabilized (stabilize att (att.slabEnd - s.t)).1
          (stabilize att (att.slabEnd - s.t)).2, Event.reset] ∧
     (createGeneralTimeSlab s att).2.1.t = s.t ∧
     (createGeneralTimeSlab s att).2.1.p = s.p ∧
     (createGeneralTimeSlab s att).2.1._finished = s._finished ∧
     (createGeneralTimeSlab s att).2.1.u.current = s.u.current ∧
     sampleTimes (createGeneralTimeSlab s att).2.2 = []) := by
  constructor
  · refine ⟨by simp [createFirstTimeSlab, h], by simp [createFirstTimeSlab, h],
      by simp [createFirstTimeSlab, h], by simp [createFirstTimeSlab, h],
      by simp [createFirstTimeSlab, h], ?_, ?_⟩
    · simp [createFirstTimeSlab, h, u_reset, hu]
    · simp [createFirstTimeSlab, h, sampleTimes]
  · refine ⟨by simp [createGeneralTimeSlab, h], by simp [createGeneralTimeSlab, h],
      by simp [createGeneralTimeSlab, h], by simp [createGeneralTimeSlab, h],
      by simp [createGeneralTimeSlab, h], ?_, ?_⟩
    · simp [createGeneralTimeSlab, h, u_reset, hu]
    · simp [createGeneralTimeSlab, h, sampleTimes]

/-- Witness for C3 at a concrete state and a non-converging attempt. -/
theorem rejection_on_iteration_failure_witness :
    attFail.iterConv = false ∧ sFix.u.current = sFix.u.committed ∧
    ((createFirstTimeSlab sFix attFail).1 = false ∧
     (createFirstTimeSlab sFix attFail).2.1.t = sFix.t ∧
     (createGeneralTimeSlab sFix attFail).1 = false ∧
     (createGeneralTimeSlab sFix attFail).2.1.u.current = sFix.u.current) :=
  ⟨rfl, rfl,
   (rejection_on_iteration_failure sFix attFail rfl rfl).1.1,
   (rejection_on_iteration_failure sFix attFail rfl rfl).1.2.2.1,
   (rejection_on_iteration_failure sFix attFail rfl rfl).2.1,
   (rejection_on_iteration_failure sFix attFail rfl rfl).2.2.2.2.2.2.1⟩

/-- C6: in the first-slab path, after convergence the residual check runs
exactly when `adaptivity.fixed()` is false: with the fixed flag set every
converged attempt is accepted regardless of the residual verdict; otherwise
a converged attempt with a rejected residual triggers
`adaptivity.shift(u, f)` on the still-tentative solution values, then
`u.reset()`, and the attempt is rejected with `t`, `p`, the finished flag
unchanged and no sample written. -/
theorem first_slab_residual_check {α : Type} (s : TimeStepper α)
    (att : Attempt α) (hc : att.iterConv = true)
    (hu : s.u.current = s.u.committed) :
    (s.fixedFlag = true → (createFirstTimeSlab s att).1 = true) ∧
    (s.fixedFlag = false → att.accepts = true →
       (createFirstTimeSlab s att).1 = true) ∧
    (s.fixedFlag = false → att.accepts = false →
       (createFirstTimeSlab s att).1 = false ∧
       (createFirstTimeSlab s att).2.2 =
         [Event.residualShift (att.iterState s.u.current), Event.reset] ∧
       (createFirstTimeSlab s att).2.1.u.current = s.u.current ∧
       (createFirstTimeSlab s att).2.1.t = s.t ∧
       (createFirstTimeSlab s att).2.1.p = s.p ∧
       (createFirstTimeSlab s att).2.1._finished = s._finished ∧
       sampleTimes (createFirstTimeSlab s att).2.2 = []) := by
  refine ⟨fun hf => by simp [createFirstTimeSlab, hc, hf],
    fun hf ha => by simp [createFirstTimeSlab, hc, hf, ha], fun hf ha => ?_⟩
  refine ⟨by simp [createFirstTimeSlab, hc, hf, ha],
    by simp [createFirstTimeSlab, hc, hf, ha], ?_,
    by simp [createFirstTimeSlab, hc, hf, ha],
    by simp [createFirstTimeSlab, hc, hf, ha],
    by simp [createFirstTimeSlab, hc, hf, ha], ?_⟩
  · simp [createFirstTimeSlab, hc, hf, ha, u_reset, hu]
  · simp [createFirstTimeSlab, hc, hf, ha, sampleTimes]

/-- Witness for C6 at a concrete adaptive-mode state with a converged but
residual-rejected attempt, and at the same state with the fixed flag set. -/
theorem first_slab_residual_check_witness :
    attRej.iterConv = true ∧ sFix.u.current = sFix.u.committed ∧
    (sFix.fixedFlag = false → attRej.accepts = false →
       (createFirstTimeSlab sFix attRej).1 = false ∧
       (createFirstTimeSlab sFix attRej).2.2 =
         [Event.residualShift (attRej.iterState sFix.u.current), Event.reset] ∧
       (createFirstTimeSlab sFix attRej).2.1.u.current = sFix.u.current ∧
       (createFirstTimeSlab sFix attRej).2.1.t = sFix.t ∧
       (createFirstTimeSlab sFix attRej).2.1.p = sFix.p ∧
       (createFirstTimeSlab sFix attRej).2.1._finished = sFix._finished ∧
       sampleTimes (createFirstTimeSlab sFix attRej).2.2 = []) ∧
    ({ sFix with fixedFlag := true }.fixedFlag = true →
       (createFirstTimeSlab { sFix with fixedFlag := true } attRej).1 = true) :=
  ⟨rfl, rfl, (first_slab_residual_check sFix attRej rfl rfl).2.2,
   (first_slab_residual_check { sFix with fixedFlag := true } attRej rfl rfl).1⟩

/-- C7: every attempt with `t == 0` goes through the first-slab (uniform
`SimpleTimeSlab`) path and every attempt with `t != 0` through the general
(recursive) path; moreover an accepted attempt leaves `t` nonzero and a
rejected attempt leaves `t` unchanged, so the uniform path can only be taken
while no slab has yet been accepted. -/
theorem createTimeSlab_dispatch {α : Type} (s : TimeStepper α) (att : Attempt α)
    (h0 : 0 ≤ s.t) (hg : goodAttempt s att) :
    (s.t = 0 → createTimeSlab s att = createFirstTimeSlab s att) ∧
    (s.t ≠ 0 → createTimeSlab s att = createGeneralTimeSlab s att) ∧
    ((createTimeSlab s att).1 = true → (createTimeSlab s att).2.1.t ≠ 0) ∧
    ((createTimeSlab s att).1 = false → (createTimeSlab s att).2.1.t = s.t) := by
  refine ⟨fun h => by rw [createTimeSlab, if_pos h],
    fun h => by rw [createTimeSlab, if_neg h], ?_, ?_⟩
  · intro hacc
    rcases createTimeSlab_cases s att with ⟨_, hst⟩ | ⟨hrej, _⟩
    · rw [hst]
      have : 0 < att.slabEnd := lt_of_le_of_lt h0 hg.1
      exact ne_of_gt this
    · rw [hacc] at hrej
      exact absurd hrej (by simp)
  · intro hrej
    rcases createTimeSlab_cases s att with ⟨hacc, _⟩ | ⟨_, hst⟩
    · rw [hrej] at hacc
      exact absurd hacc (by simp)
    · rw [hst]

/-- Witness for C7 at a concrete mid-run state with `t = 4` and a
well-formed attempt. -/
theorem createTimeSlab_dispatch_witness :
    (0:ℚ) ≤ sFix.t ∧ goodAttempt sFix attConv ∧
    ((sFix.t ≠ 0 → createTimeSlab sFix attConv = createGeneralTimeSlab sFix attConv) ∧
     ((createTimeSlab sFix attConv).1 = true → (createTimeSlab sFix attConv).2.1.t ≠ 0)) :=
  ⟨by norm_num [sFix], ⟨by norm_num [sFix, attConv], by norm_num [sFix, attConv]⟩,
   (createTimeSlab_dispatch sFix attConv (by norm_num [sFix])
      ⟨by norm_num [sFix, attConv], by norm_num [sFix, attConv]⟩).2.1,
   (createTimeSlab_dispatch sFix attConv (by norm_num [sFix])
      ⟨by norm_num [sFix, attConv], by norm_num [sFix, attConv]⟩).2.2.1⟩

/-- C9 counterexample: the constructor performs no validation — called with
the invalid configuration `N = 0`, `T = -1 <= 0`, `sample count = 0`, it
returns an ordinary stepper state holding exactly those values, rather than
rejecting them. -/
theorem mkTimeStepper_accepts_invalid_config :
    mkTimeStepper 0 0 (-1) true false (0:ℚ) =
      { no_samples := 0, N := 0, t := 0, T := -1, p := 0, _finished := false,
        save_solution := true, fixedFlag := false,
        u := { committed := 0, current := 0 } } := rfl

/-- C9 amended: stepper construction performs no validation at all — for
every configuration, valid or not, it succeeds and stores the configuration
values unchanged, starting at `t = 0` with the finished flag cleared. -/
theorem mkTimeStepper_no_validation {α : Type} (n : ℤ) (N : ℕ) (T : ℚ)
    (sv fx : Bool) (u0 : α) :
    (mkTimeStepper n N T sv fx u0).no_samples = n ∧
    (mkTimeStepper n N T sv fx u0).N = N ∧
    (mkTimeStepper n N T sv fx u0).T = T ∧
    (mkTimeStepper n N T sv fx u0).t = 0 ∧
    (mkTimeStepper n N T sv fx u0)._finished = false ∧
    (mkTimeStepper n N T sv fx u0).save_solution = sv :=
  ⟨rfl, rfl, rfl, rfl, rfl, rfl⟩

/-- C1: `t` starts at `0` at construction; an attempt on a state satisfying
`0 <= t <= T`, with a well-formed slab (`t < end <= T`), preserves
`0 <= t <= T` and `T`; a rejected attempt changes neither `t` nor the
finished flag; an accepted attempt sets `t` to the slab end time, strictly
increasing it; and on acceptance the finished flag is true exactly when it
already was or the accepted slab ends at `T`, in which case the progress is
set to `1`. -/
theorem time_monotone_invariant {α : Type} (s : TimeStepper α) (att : Attempt α)
    (hInv : 0 ≤ s.t ∧ s.t ≤ s.T) (hg : goodAttempt s att) :
    (∀ (n : ℤ) (N : ℕ) (T : ℚ) (sv fx : Bool) (u0 : α),
        (mkTimeStepper n N T sv fx u0).t = 0) ∧
    (createTimeSlab s att).2.1.T = s.T ∧
    (0 ≤ (createTimeSlab s att).2.1.t ∧
     (createTimeSlab s att).2.1.t ≤ (createTimeSlab s att).2.1.T) ∧
    ((createTimeSlab s att).1 = false →
       (createTimeSlab s att).2.1.t = s.t ∧
       (createTimeSlab s att).2.1._finished = s._finished) ∧
    ((createTimeSlab s att).1 = true →
       (createTimeSlab s att).2.1.t = att.slabEnd ∧
       s.t < (createTimeSlab s att).2.1.t) ∧
    ((createTimeSlab s att).1 = true →
       (((createTimeSlab s att).2.1._finished = true) ↔
          (s._finished = true ∨ att.slabEnd = s.T)) ∧
       (att.slabEnd = s.T → (createTimeSlab s att).2.1.p = 1)) := by
  refine ⟨fun n N T sv fx u0 => rfl, ?_, ?_, ?_, ?_, ?_⟩ <;>
    rcases createTimeSlab_cases s att with ⟨hacc, hst⟩ | ⟨hrej, hst⟩
  · rw [hst]
  · rw [hst]
  · rw [hst]
    exact ⟨le_of_lt (lt_of_le_of_lt hInv.1 hg.1), hg.2⟩
  · rw [hst]
    exact hInv
  · intro h
    rw [h] at hacc
    exact absurd hacc (by simp)
  · intro _
    rw [hst]
    exact ⟨rfl, rfl⟩
  · intro _
    rw [hst]
    exact ⟨rfl, hg.1⟩
  · intro h
    rw [h] at hrej
    exact absurd hrej (by simp)
  · intro _
    rw [hst]
    constructor
    · simp
    · intro hend
      simp [hend]
  · intro h
    rw [h] at hrej
    exact absurd hrej (by simp)

/-- Witness for C1 at a concrete state and a well-formed converging attempt
ending before `T`. -/
theorem time_monotone_invariant_witness :
    ((0:ℚ) ≤ sFix.t ∧ sFix.t ≤ sFix.T) ∧ goodAttempt sFix attConv ∧
    ((createTimeSlab sFix attConv).2.1.T = sFix.T ∧
     (0 ≤ (createTimeSlab sFix attConv).2.1.t ∧
      (createTimeSlab sFix attConv).2.1.t ≤ (createTimeSlab sFix attConv).2.1.T) ∧
     ((createTimeSlab sFix attConv).1 = true →
        (createTimeSlab sFix attConv).2.1.t = attConv.slabEnd ∧
        sFix.t < (createTimeSlab sFix attConv).2.1.t)) :=
  ⟨⟨by norm_num [sFix], by norm_num [sFix]⟩,
   ⟨by norm_num [sFix, attConv], by norm_num [sFix, attConv]⟩,
   (time_monotone_invariant sFix attConv
      ⟨by norm_num [sFix], by norm_num [sFix]⟩
      ⟨by norm_num [sFix, attConv], by norm_num [sFix, attConv]⟩).2.1,
   (time_monotone_invariant sFix attConv
      ⟨by norm_num [sFix], by norm_num [sFix]⟩
      ⟨by norm_num [sFix, attConv], by norm_num [sFix, attConv]⟩).2.2.1,
   (time_monotone_invariant sFix attConv
      ⟨by norm_num [sFix], by norm_num [sFix]⟩
      ⟨by norm_num [sFix, attConv], by norm_num [sFix, attConv]⟩).2.2.2.2.1⟩

/-- C4: `step()` loops over slab attempts until one is accepted and only
then returns; the value returned is the new current time (which on the
accepting attempt equals that slab end time); a rejected attempt is never
surfaced — it just continues the loop on the post-rejection state — and
exhausting the supplied attempts without an acceptance yields no return at
all. -/
theorem step_returns_accepted_time {α : Type} (s : TimeStepper α)
    (atts : List (Attempt α)) :
    (∀ (r : ℚ) (q : TimeStepper α × List (Event α)),
        step s atts = some (r, q) → r = q.1.t) ∧
    (∀ att rest, atts = att :: rest → (createTimeSlab s att).1 = true →
        step s atts = some ((createTimeSlab s att).2.1.t,
          (createTimeSlab s att).2.1, (createTimeSlab s att).2.2) ∧
        (createTimeSlab s att).2.1.t = att.slabEnd) ∧
    (∀ att rest, atts = att :: rest → (createTimeSlab s att).1 = false →
        step s atts = Option.map
          (fun q => (q.1, q.2.1, (createTimeSlab s att).2.2 ++ q.2.2))
          (step (createTimeSlab s att).2.1 rest)) ∧
    (step s ([] : List (Attempt α)) = none) := by
  refine ⟨?_, ?_, ?_, rfl⟩
  · induction atts generalizing s with
    | nil => intro r q h; exact absurd h (by simp [step])
    | cons att rest ih =>
      intro r q h
      rw [step] at h
      by_cases hacc : (createTimeSlab s att).1
      · rw [if_pos hacc] at h
        obtain ⟨h1, h2⟩ := Prod.mk.injEq .. ▸ Option.some.injEq .. ▸ h
        rw [← h2, ← h1]
      · rw [if_neg hacc] at h
        cases hs : step (createTimeSlab s att).2.1 rest with
        | none => rw [hs] at h; exact absurd h (by simp)
        | some q2 =>
          rw [hs] at h
          have := ih (createTimeSlab s att).2.1 q2.1 q2.2 (by rw [hs])
          obtain ⟨h1, h2⟩ := Prod.mk.injEq .. ▸ Option.some.injEq .. ▸ h
          rw [← h2, ← h1]
          exact this
  · intro att rest hcons hacc
    subst hcons
    constructor
    · rw [step, if_pos hacc]
    · rcases createTimeSlab_cases s att with ⟨_, hst⟩ | ⟨hrej, _⟩
      · rw [hst]
      · rw [hacc] at hrej
        exact absurd hrej (by simp)
  · intro att rest hcons hrej
    subst hcons
    rw [step, if_neg (by rw [hrej]; exact Bool.false_ne_true)]
    cases hs : step (createTimeSlab s att).2.1 rest <;> rfl

/-- Witness for C4: a rejected attempt followed by an accepted one — the
loop retries past the rejection and returns the accepted slab end time. -/
theorem step_returns_accepted_time_witness :
    ([attFail, attConv] = attFail :: [attConv] ∧
     (createTimeSlab sFix attFail).1 = false ∧
     step sFix [attFail, attConv] = Option.map
       (fun q => (q.1, q.2.1, (createTimeSlab sFix attFail).2.2 ++ q.2.2))
       (step (createTimeSlab sFix attFail).2.1 [attConv])) ∧
    ([attConv] = attConv :: ([] : List (Attempt ℚ)) ∧
     (createTimeSlab sFix attConv).1 = true ∧
     step sFix [attConv] = some ((createTimeSlab sFix attConv).2.1.t,
       (createTimeSlab sFix attConv).2.1, (createTimeSlab sFix attConv).2.2) ∧
     (createTimeSlab sFix attConv).2.1.t = attConv.slabEnd) :=
  ⟨⟨rfl, by norm_num [createTimeSlab, createGeneralTimeSlab, sFix, attFail],
    (step_returns_accepted_time sFix [attFail, attConv]).2.2.1 attFail [attConv] rfl
      (by norm_num [createTimeSlab, createGeneralTimeSlab, sFix, attFail])⟩,
   ⟨rfl, by norm_num [createTimeSlab, createGeneralTimeSlab, sFix, attConv],
    (step_returns_accepted_time sFix [attConv]).2.1 attConv [] rfl
      (by norm_num [createTimeSlab, createGeneralTimeSlab, sFix, attConv])⟩⟩

theorem sampling_cadence {α : Type} :
    (∀ (s : TimeStepper α) (att : Attempt α) (x : ℚ),
        s.save_solution = true → 0 < s.T / (s.no_samples : ℚ) →
        att.iterConv = true → att.accepts = true →
        (x ∈ sampleTimes (createTimeSlab s att).2.2 ↔
          ((∃ j : ℤ, x = (j : ℚ) * (s.T / (s.no_samples : ℚ))) ∧
             s.t ≤ x ∧ x < att.slabEnd) ∨
          (att.slabEnd = s.T ∧ x = att.slabEnd))) ∧
    (∀ (s : TimeStepper α) (atts : List (Attempt α)),
        s.T = 10 → s.no_samples = 5 → s.save_solution = true → s.t = 0 →
        atts ≠ [] →
        List.Chain (· < ·) s.t (atts.map (·.slabEnd)) →
        (∀ a ∈ atts, a.slabEnd ≤ 10) →
        (atts.map (·.slabEnd)).getLast? = some 10 →
        (∀ a ∈ atts, a.iterConv = true ∧ a.accepts = true) →
        sampleTimes (run s atts).2 = [0, 2, 4, 6, 8, 10]) := by
  constructor
  · intro s att x hsave hK hc ha
    rw [(createTimeSlab_accepted_events s att hc ha).2.2, sampleTimes_append,
      sampleTimes_map_sampled, sampleTimes_shifted, List.append_nil]
    exact mem_save_iff s s.t att.slabEnd x _ hsave rfl hK
  · intro s atts hT hn hsave ht0 hne hchain hub hlast hacc
    rw [run_samples_chain s atts hT hn hsave (by rw [ht0]) hne hchain hub hlast hacc,
      ht0, save_zero_to_ten s hT hn hsave]

theorem sampling_cadence_witness :
    (sRun.save_solution = true ∧ 0 < sRun.T / (sRun.no_samples : ℚ) ∧
     attA.iterConv = true ∧ attA.accepts = true ∧
     ((2 : ℚ) ∈ sampleTimes (createTimeSlab sRun attA).2.2 ↔
       ((∃ j : ℤ, (2 : ℚ) = (j : ℚ) * (sRun.T / (sRun.no_samples : ℚ))) ∧
          sRun.t ≤ 2 ∧ (2 : ℚ) < attA.slabEnd) ∨
       (attA.slabEnd = sRun.T ∧ (2 : ℚ) = attA.slabEnd))) ∧
    sampleTimes (run sRun [attA, attB]).2 = [0, 2, 4, 6, 8, 10] :=
  ⟨⟨rfl, by norm_num [sRun], rfl, rfl,
    sampling_cadence.1 sRun attA 2 rfl (by norm_num [sRun]) rfl rfl⟩,
   sampling_cadence.2 sRun [attA, attB] rfl rfl rfl rfl (by simp)
     (by norm_num [List.chain_cons, sRun, attA, attB])
     (by norm_num [attA, attB])
     (by norm_num [attA, attB])
     (by norm_num [attA, attB])⟩

end TimeStepperModel
